import Mathlib

/-!
Verification of the mobBuild orchestration core.

The definitions below are a shallow embedding of the repository's
orchestration engine (`src/orchestrator/engine.ts`, file `part_009`), the
MCP tool servers (`src/mcp/servers/*.ts`) and the provider registry.
JavaScript records (`Record<string, string>` / `Record<string, unknown>`)
are modelled as insertion-ordered association lists; JS `Map` is modelled
the same way (`set` updates in place or appends, `delete` removes the
keyed entry).  The nondeterministic id generator
(`app-${Date.now()}-${random}`) is replaced by a deterministic supply
`appIdOf` drawn from a counter carried in the orchestrator state.
Promise sequencing is pure sequencing; a thrown `Error` is an
`Except.error` carrying the message.
-/

set_option maxRecDepth 10000

/-- JSON-ish values, modelling TypeScript `Record<string, unknown>` inputs
and outputs of the MCP tool operations. `undef` models `undefined`. -/
inductive JVal where
  | str (s : String)
  | num (n : Nat)
  | bool (b : Bool)
  | arr (xs : List JVal)
  | obj (fields : List (String × JVal))
  | undef

/-- Association-list lookup, first entry with the key wins (JS object /
`Map.get` semantics). -/
def alookup {α : Type} (k : String) : List (String × α) → Option α
  | [] => none
  | (k', v) :: t => if k' = k then some v else alookup k t

/-- The keys of a record, in iteration order. -/
def recordKeys {α : Type} (m : List (String × α)) : List String :=
  m.map Prod.fst

/-- JS `Map.set` / object-key assignment: update the entry in place if the
key is present (keeping its position), otherwise append. -/
def mapSet {α : Type} (m : List (String × α)) (k : String) (v : α) : List (String × α) :=
  if k ∈ recordKeys m then
    m.map (fun p => if p.1 = k then (k, v) else p)
  else
    m ++ [(k, v)]

/-- Property access `o.k` on a loosely typed value: `undefined` when the
field is absent or the value is not an object. -/
def jGet (v : JVal) (k : String) : JVal :=
  match v with
  | JVal.obj fields => (alookup k fields).getD JVal.undef
  | _ => JVal.undef

/-- JavaScript truthiness of a value. -/
def jTruthy : JVal → Bool
  | JVal.str s => s ≠ ""
  | JVal.num n => n ≠ 0
  | JVal.bool b => b
  | JVal.arr _ => true
  | JVal.obj _ => true
  | JVal.undef => false

/-- Rendering of a value in a template string position. -/
def jToStr : JVal → String
  | JVal.str s => s
  | JVal.num n => toString n
  | JVal.bool b => if b then "true" else "false"
  | JVal.arr _ => ""
  | JVal.obj _ => "[object Object]"
  | JVal.undef => "undefined"

/-- `(o.k as string) || fallback`: the field if it is truthy, else the
fallback. -/
def getStrOr (v : JVal) (k : String) (fallback : String) : String :=
  let f := jGet v k
  if jTruthy f then jToStr f else fallback

/-- `xs?.length || 0` on a loosely typed array field. -/
def jLenOr0 : JVal → Nat
  | JVal.arr xs => xs.length
  | _ => 0

/-- `Object.keys(o || {}).length` on a loosely typed object field. -/
def jKeysLen : JVal → Nat
  | JVal.obj fields => fields.length
  | _ => 0

/-- Whitespace recognised by the modelled `trim` (the characters occurring
in the repository's inputs). -/
def isWS (c : Char) : Bool :=
  c = ' ' ∨ c = '\t' ∨ c = '\n' ∨ c = '\r'

/-- JS `String.prototype.trim`, modelled over the character list. -/
def trimStr (s : String) : String :=
  String.mk (((s.data.dropWhile isWS).reverse.dropWhile isWS).reverse)

/-- ASCII `String.prototype.toLowerCase`. -/
def lowerStr (s : String) : String :=
  String.mk (s.data.map fun c => if 'A' ≤ c ∧ c ≤ 'Z' then Char.ofNat (c.toNat + 32) else c)

/-- Does `needle` occur as a prefix of `hay`? -/
def listIsPre : List Char → List Char → Bool
  | [], _ => true
  | _ :: _, [] => false
  | a :: as, b :: bs => a = b && listIsPre as bs

/-- JS `String.prototype.includes` over character lists. -/
def containsSub (hay needle : List Char) : Bool :=
  match hay with
  | [] => needle.isEmpty
  | _ :: t => listIsPre needle hay || containsSub t needle

/-- JS `String.prototype.split(sep)` for a single-character separator,
keeping empty segments. -/
def splitOnCharAux (sep : Char) : List Char → List Char → List String
  | acc, [] => [String.mk acc.reverse]
  | acc, c :: rest =>
    if c = sep then String.mk acc.reverse :: splitOnCharAux sep [] rest
    else splitOnCharAux sep (c :: acc) rest

/-- JS `s.split(sep)` for a one-character separator. -/
def splitOnChar (s : String) (sep : Char) : List String :=
  splitOnCharAux sep [] s.data

/-- JS `Array.prototype.join(sep)`. -/
def joinSep (sep : String) : List String → String
  | [] => ""
  | [x] => x
  | x :: xs => x ++ sep ++ joinSep sep xs

/-- `path.replace(/\//g, '_')` from `generateBackend`. -/
def sanitizePath (s : String) : String :=
  String.mk (s.data.map fun c => if c = '/' then '_' else c)

/-! ## Data model (`src/types/app.ts`) -/

/-- `ColumnDefinition` from `src/types/app.ts`; the semantic type union is
modelled as a string. -/
structure ColumnDefinition where
  name : String
  type : String
  required : Bool
  unique : Option Bool := none
deriving DecidableEq

/-- `TableDefinition` from `src/types/app.ts`. -/
structure TableDefinition where
  name : String
  columns : List ColumnDefinition
deriving DecidableEq

/-- `APIEndpointDefinition` from `src/types/app.ts` (the unused optional
request/response shape hints are omitted). -/
structure APIEndpointDefinition where
  path : String
  method : String
  description : String
deriving DecidableEq

/-- `UIComponentDefinition` from `src/types/app.ts`. -/
structure UIComponentDefinition where
  name : String
  type : String
  relatedEndpoints : List String
  fields : Option (List String) := none
deriving DecidableEq

/-- `AppRequirement` from `src/types/app.ts`. -/
structure AppRequirement where
  name : String
  description : String
  features : List String
  databaseTables : Option (List TableDefinition) := none
  apiEndpoints : Option (List APIEndpointDefinition) := none
  uiComponents : Option (List UIComponentDefinition) := none
deriving DecidableEq

/-- The `status` union of `GeneratedApp`. -/
inductive AppStatus where
  | planning | generating | generated | deploying | deployed | failed
deriving DecidableEq

/-- The `currentPhase` union of `OrchestrationContext`. -/
inductive Phase where
  | planning | generating | deploying
deriving DecidableEq

/-- `GeneratedApp` from `src/types/app.ts`; the three code bundles are
insertion-ordered path-to-text records (`createdAt` is omitted). -/
structure GeneratedApp where
  id : String
  name : String
  requirement : AppRequirement
  frontendLanguage : String := "typescript"
  frontendFramework : String := "react"
  frontendCode : List (String × String)
  backendLanguage : String := "typescript"
  backendFramework : String := "express"
  backendCode : List (String × String)
  databaseType : String := "postgresql"
  databaseSchema : List (String × String)
  databaseMigrations : List (String × String)
  repositoryUrl : Option String := none
  defaultBranch : String
  status : AppStatus
deriving DecidableEq

/-- `OrchestrationContext` from `src/types/app.ts`. -/
structure OrchestrationContext where
  appId : String
  requirement : AppRequirement
  generatedApp : Option GeneratedApp := none
  currentPhase : Phase
  errors : List String
deriving DecidableEq

/-! ## MCP servers (`src/mcp/servers/*.ts`)

Each server class carries a private `isInitialized` / `_isHealthy` pair;
the tool `execute` methods read only their `input` argument and never
assign to the server's fields, so they are modelled as pure functions on
`JVal`.  `runTool` makes the (absence of) state transition of an
operation explicit. -/

/-- The `isInitialized` / `_isHealthy` pair every MCP server class owns. -/
structure MCPServerState where
  isInitialized : Bool
  healthy : Bool
deriving DecidableEq

/-- A freshly constructed server: both flags `false`. -/
def serverInitialState : MCPServerState := ⟨false, false⟩

/-- `initialize()`: the setup step always resolves, then both flags are set. -/
def initServer (_s : MCPServerState) : MCPServerState := ⟨true, true⟩

/-- `shutdown()`: clears both flags. -/
def shutdownServer (_s : MCPServerState) : MCPServerState := ⟨false, false⟩

/-- `isHealthy()`. -/
def isHealthyServer (s : MCPServerState) : Bool := s.healthy

/-- Dispatch a named tool of a server: the source `execute` methods never
touch the server's fields, so the state component is returned unchanged;
an unknown tool name yields `none`. -/
def runTool (tools : List (String × (JVal → JVal))) (s : MCPServerState)
    (op : String) (input : JVal) : MCPServerState × Option JVal :=
  (s, (alookup op tools).map fun f => f input)

/-- `BackendMCPServer.generateAPI` (`src/mcp/servers/backend.ts`). -/
def backendGenerateAPI (input : JVal) : JVal :=
  let endpoint := jGet input "endpoint"
  let method := jGet input "method"
  let handlers := jGet input "handlers"
  JVal.obj
    [("success", JVal.bool true),
     ("generated", JVal.obj
       [("file", JVal.str ("backend/api/" ++ jToStr endpoint ++ ".js")),
        ("content", JVal.str ("// Generated API endpoint: " ++ jToStr endpoint ++
          "\nmodule.exports = \x7b /* API logic */ \x7d;"))]),
     ("endpoint", endpoint),
     ("method", method),
     ("handlersCount", JVal.num (jLenOr0 handlers))]

/-- `BackendMCPServer.createEndpoint`. -/
def backendCreateEndpoint (input : JVal) : JVal :=
  let path := jGet input "path"
  let method := jGet input "method"
  let controller := jGet input "controller"
  JVal.obj
    [("success", JVal.bool true),
     ("generated", JVal.obj
       [("file", JVal.str ("backend/routes/" ++ jToStr path ++ ".js")),
        ("content", JVal.str ("// Endpoint: " ++ jToStr method ++ " " ++ jToStr path ++
          "\nmodule.exports = " ++ jToStr controller ++ ";"))]),
     ("path", path),
     ("method", method),
     ("controller", controller)]

/-- `BackendMCPServer.deployBackend`. -/
def backendDeployBackend (input : JVal) : JVal :=
  let environment := jGet input "environment"
  let config := jGet input "config"
  JVal.obj
    [("success", JVal.bool true),
     ("deployed", JVal.obj
       [("environment", environment),
        ("url", JVal.str ("https://api-" ++ jToStr environment ++ ".example.com")),
        ("status", JVal.str "deployed")]),
     ("environment", environment),
     ("configKeys", JVal.num (jKeysLen config))]

/-- The tool table of `BackendMCPServer.getTools()`. -/
def backendServerTools : List (String × (JVal → JVal)) :=
  [("generate-api", backendGenerateAPI),
   ("create-endpoint", backendCreateEndpoint),
   ("deploy-backend", backendDeployBackend)]

/-- `FrontendMCPServer.generateComponent` (`src/mcp/servers/frontend.ts`). -/
def frontendGenerateComponent (input : JVal) : JVal :=
  let name := jGet input "name"
  let props := jGet input "props"
  let styling := jGet input "styling"
  JVal.obj
    [("success", JVal.bool true),
     ("generated", JVal.obj
       [("file", JVal.str ("frontend/components/" ++ jToStr name ++ ".tsx")),
        ("content", JVal.str ("// Generated React component: " ++ jToStr name ++
          "\nimport React from 'react';\n\ninterface Props \x7b\x7d\n\nexport const " ++
          jToStr name ++ ": React.FC<Props> = () => \x7b\n  return <div>" ++ jToStr name ++
          " Component</div>;\n\x7d;"))]),
     ("name", name),
     ("propsCount", JVal.num (jKeysLen props)),
     ("styling", styling)]

/-- `FrontendMCPServer.createPage`. -/
def frontendCreatePage (input : JVal) : JVal :=
  let path := jGet input "path"
  let components := jGet input "components"
  let layout := jGet input "layout"
  JVal.obj
    [("success", JVal.bool true),
     ("generated", JVal.obj
       [("file", JVal.str ("frontend/pages/" ++ jToStr path ++ "Page.tsx")),
        ("content", JVal.str ("// Page: " ++ jToStr path ++
          "\nimport React from 'react';\n\nexport const " ++ jToStr path ++
          "Page: React.FC = () => \x7b\n  return <div>" ++ jToStr path ++
          " Page</div>;\n\x7d;"))]),
     ("path", path),
     ("componentsCount", JVal.num (jLenOr0 components)),
     ("layout", layout)]

/-- `FrontendMCPServer.deployFrontend`. -/
def frontendDeployFrontend (input : JVal) : JVal :=
  let environment := jGet input "environment"
  let config := jGet input "config"
  JVal.obj
    [("success", JVal.bool true),
     ("deployed", JVal.obj
       [("environment", environment),
        ("url", JVal.str ("https://app-" ++ jToStr environment ++ ".example.com")),
        ("status", JVal.str "deployed")]),
     ("environment", environment),
     ("configKeys", JVal.num (jKeysLen config))]

/-- The tool table of `FrontendMCPServer.getTools()`. -/
def frontendServerTools : List (String × (JVal → JVal)) :=
  [("generate-component", frontendGenerateComponent),
   ("create-page", frontendCreatePage),
   ("deploy-frontend", frontendDeployFrontend)]

/-- Strict equality `v === false`, used by `generateSchemaSQL`'s
`column.nullable === false` test. -/
def jIsFalse : JVal → Bool
  | JVal.bool false => true
  | _ => false

/-- `generateSchemaSQL` from `src/mcp/servers/database.ts`, over the loosely
typed `tables` array. -/
def generateTableColumnsSQL (columns : List JVal) : String :=
  let n := columns.length
  (columns.enum.map fun ci =>
    let index := ci.1
    let column := ci.2
    "  " ++ jToStr (jGet column "name") ++ " " ++ jToStr (jGet column "type") ++
    (if jIsFalse (jGet column "nullable") then " NOT NULL" else "") ++
    (if jTruthy (jGet column "primaryKey") then " PRIMARY KEY" else "") ++
    (if jTruthy (jGet column "autoIncrement") then " AUTO_INCREMENT" else "") ++
    (if index < n - 1 then "," else "") ++ "\n").foldl (· ++ ·) ""

/-- `DatabaseMCPServer.generateSchemaSQL`. -/
def generateSchemaSQL (tables : JVal) : String :=
  let ts := match tables with | JVal.arr xs => xs | _ => []
  ts.foldl (fun sql table =>
    sql ++ "CREATE TABLE " ++ jToStr (jGet table "name") ++ " (\n" ++
    generateTableColumnsSQL (match jGet table "columns" with | JVal.arr cs => cs | _ => []) ++
    ");\n\n") "-- Generated Database Schema\n\n"

/-- `DatabaseMCPServer.generateSchema` (`src/mcp/servers/database.ts`). -/
def dbGenerateSchema (input : JVal) : JVal :=
  let tables := jGet input "tables"
  JVal.obj
    [("success", JVal.bool true),
     ("generated", JVal.obj
       [("file", JVal.str "database/schema.sql"),
        ("content", JVal.str ("-- Generated schema\n" ++
          generateSchemaSQL (if jTruthy tables then tables else JVal.arr [])))]),
     ("tablesCount", JVal.num (jLenOr0 tables))]

/-- `DatabaseMCPServer.createTable`. -/
def dbCreateTable (input : JVal) : JVal :=
  let name := jGet input "name"
  let columns := jGet input "columns"
  let indexes := jGet input "indexes"
  JVal.obj
    [("success", JVal.bool true),
     ("generated", JVal.obj
       [("file", JVal.str ("database/tables/" ++ jToStr name ++ ".sql")),
        ("content", JVal.str ("-- Table: " ++ jToStr name ++ "\n-- Table: " ++
          jToStr name ++ "\nCREATE TABLE " ++ jToStr name ++ " (\n" ++
          generateTableColumnsSQL (match columns with | JVal.arr cs => cs | _ => []) ++
          ");\n" ++
          (match indexes with
           | JVal.arr (ix :: ixs) =>
             (ix :: ixs).foldl (fun sql index =>
               sql ++ "CREATE INDEX " ++ jToStr (jGet index "name") ++ " ON " ++
               jToStr name ++ " (" ++
               joinSep ", " ((match jGet index "columns" with
                 | JVal.arr cs => cs
                 | _ => []).map jToStr) ++ ");\n") "\n-- Indexes\n"
           | _ => "")))]),
     ("name", name),
     ("columnsCount", JVal.num (jLenOr0 columns)),
     ("indexesCount", JVal.num (jLenOr0 indexes))]

/-- `DatabaseMCPServer.generateMigrationSQL`. -/
def generateMigrationSQL (changes : JVal) : String :=
  "-- Migration: changes\nBEGIN;\n\n-- Changes\n" ++
  (let sql := jGet changes "sql"
   if jTruthy sql then jToStr sql else "-- Add your SQL changes here") ++
  "\n\nCOMMIT;"

/-- `DatabaseMCPServer.setupMigrations`. -/
def dbSetupMigrations (input : JVal) : JVal :=
  let operation := jGet input "operation"
  let changes := jGet input "changes"
  let version := jGet input "version"
  JVal.obj
    [("success", JVal.bool true),
     ("generated", JVal.obj
       [("file", JVal.str ("database/migrations/" ++ jToStr version ++ "_" ++
          jToStr operation ++ ".sql")),
        ("content", JVal.str ("-- Migration: " ++ jToStr operation ++ "\n" ++
          generateMigrationSQL changes))]),
     ("operation", operation),
     ("version", version),
     ("hasSQL", JVal.bool (jTruthy (jGet changes "sql")))]

/-- The tool table of `DatabaseMCPServer.getTools()`. -/
def databaseServerTools : List (String × (JVal → JVal)) :=
  [("generate-schema", dbGenerateSchema),
   ("create-table", dbCreateTable),
   ("setup-migrations", dbSetupMigrations)]

/-- `GitHubMCPServer.createRepository` (`src/mcp/servers/github.ts`). -/
def ghCreateRepository (input : JVal) : JVal :=
  let name := jGet input "name"
  let description := jGet input "description"
  let isPrivate := jGet input "private"
  JVal.obj
    [("success", JVal.bool true),
     ("created", JVal.obj
       [("repository", name),
        ("url", JVal.str ("https://github.com/user/" ++ jToStr name)),
        ("description", description),
        ("private", isPrivate),
        ("status", JVal.str "created")]),
     ("name", name),
     ("descriptionLength", JVal.num (match description with
        | JVal.str s => s.length
        | _ => 0)),
     ("isPrivate", isPrivate)]

/-- `GitHubMCPServer.commitCode`. -/
def ghCommitCode (input : JVal) : JVal :=
  let repository := jGet input "repository"
  let files := jGet input "files"
  let message := jGet input "message"
  let branch := jGet input "branch"
  let branchOrMain := if jTruthy branch then branch else JVal.str "main"
  JVal.obj
    [("success", JVal.bool true),
     ("committed", JVal.obj
       [("repository", repository),
        ("branch", branchOrMain),
        ("message", message),
        ("filesCommitted", JVal.num (jLenOr0 files)),
        ("status", JVal.str "committed")]),
     ("repository", repository),
     ("branch", branchOrMain),
     ("message", message),
     ("filesCount", JVal.num (jLenOr0 files))]

/-- `GitHubMCPServer.createBranch`. -/
def ghCreateBranch (input : JVal) : JVal :=
  let repository := jGet input "repository"
  let branch := jGet input "branch"
  let fromBranch := jGet input "fromBranch"
  let fromOrMain := if jTruthy fromBranch then fromBranch else JVal.str "main"
  JVal.obj
    [("success", JVal.bool true),
     ("created", JVal.obj
       [("repository", repository),
        ("branch", branch),
        ("fromBranch", fromOrMain),
        ("status", JVal.str "created")]),
     ("repository", repository),
     ("branch", branch),
     ("fromBranch", fromOrMain)]

/-- `GitHubMCPServer.setupWorkflows`. -/
def ghSetupWorkflows (input : JVal) : JVal :=
  let repository := jGet input "repository"
  let workflow := jGet input "workflow"
  let config := jGet input "config"
  JVal.obj
    [("success", JVal.bool true),
     ("created", JVal.obj
       [("repository", repository),
        ("workflow", workflow),
        ("config", config),
        ("status", JVal.str "created")]),
     ("repository", repository),
     ("workflow", workflow),
     ("configKeys", JVal.num (jKeysLen config))]

/-- The tool table of `GitHubMCPServer.getTools()`. -/
def githubServerTools : List (String × (JVal → JVal)) :=
  [("create-repository", ghCreateRepository),
   ("commit-code", ghCommitCode),
   ("create-branch", ghCreateBranch),
   ("setup-workflows", ghSetupWorkflows)]

/-! ## Provider Registry

The interface `MCPOrchestrator` (`src/types/mcp.ts`, `registerServer` /
`executeTool` / `healthCheck`) is declared and used by the orchestration
engine, but the class implementing it is not among the provided sources;
it is modelled from the specification below. -/

/-- A tool operation held by the registry: it either returns an output
mapping or raises a failure. -/
def ToolFn : Type := JVal → Except String JVal

/-- Lift a server tool (the provided servers never raise) into a registry
operation. -/
def liftTool (f : JVal → JVal) : ToolFn := fun input => Except.ok (f input)

/-- A provider registration entry: the provider's own state pair and its
operation table. -/
structure Provider where
  state : MCPServerState
  tools : List (String × ToolFn)

/-- The registry's provider map, keyed by provider name. -/
def Registry : Type := List (String × Provider)

/-- The failure conditions of the registry's tool invocation. -/
inductive InvokeError where
  | notFound (provider : String)
  | unhealthy (provider : String)
  | opNotFound (provider : String) (operation : String)
  | opFailed (message : String)

/-- Modelled from the spec: the Provider Registry's
`invoke(providerName, operationName, input)` (`executeTool` of the
`MCPOrchestrator` interface, whose implementing class is missing from the
sources): fails with a NotFound condition if the provider is unknown;
fails with an Unhealthy condition if the provider's liveness check
returns false; fails with an OperationNotFound condition if the named
operation does not exist on the provider; otherwise invokes the
operation and returns its output mapping verbatim, or propagates any
failure the operation raises. -/
def invoke (reg : Registry) (providerName operationName : String) (input : JVal) :
    Except InvokeError JVal :=
  match alookup providerName reg with
  | none => Except.error (InvokeError.notFound providerName)
  | some provider =>
    if isHealthyServer provider.state = false then
      Except.error (InvokeError.unhealthy providerName)
    else
      match alookup operationName provider.tools with
      | none => Except.error (InvokeError.opNotFound providerName operationName)
      | some op =>
        match op input with
        | Except.ok output => Except.ok output
        | Except.error e => Except.error (InvokeError.opFailed e)

/-- Modelled from the spec: `register(provider)` adds the provider under
its name (idempotent overwrite) after running its initialize step (which
always succeeds for the provided servers). -/
def registerProvider (reg : Registry) (name : String)
    (tools : List (String × ToolFn)) : Registry :=
  mapSet reg name ⟨initServer serverInitialState, tools⟩

/-- The registry as `src/index.ts` builds it: the four servers registered
(and hence initialized) in order. -/
def theRegistry : Registry :=
  registerProvider
    (registerProvider
      (registerProvider
        (registerProvider [] "backend-service" (backendServerTools.map fun p => (p.1, liftTool p.2)))
        "frontend-service" (frontendServerTools.map fun p => (p.1, liftTool p.2)))
      "database-service" (databaseServerTools.map fun p => (p.1, liftTool p.2)))
    "github-service" (githubServerTools.map fun p => (p.1, liftTool p.2))

/-- Render a registry failure as the message of the thrown `Error`. -/
def renderInvokeError : InvokeError → String
  | InvokeError.notFound p => "MCP server " ++ p ++ " not found"
  | InvokeError.unhealthy p => "MCP server " ++ p ++ " is not healthy"
  | InvokeError.opNotFound p t => "Tool " ++ t ++ " not found on server " ++ p
  | InvokeError.opFailed e => e

/-- The shape of the `executeTool` dependency injected into the
orchestration engine. -/
def ExecFn : Type := String → String → JVal → Except String JVal

/-- `executeTool` against the fully registered registry. -/
def realExec : ExecFn := fun server tool input =>
  match invoke theRegistry server tool input with
  | Except.ok v => Except.ok v
  | Except.error e => Except.error (renderInvokeError e)

/-- A record of one `executeTool` call: server name, tool name, input. -/
def ToolCall : Type := String × String × JVal

/-! ## Orchestration engine (`src/orchestrator/engine.ts`) -/

/-- The orchestrator's mutable state: the id-supply counter standing in
for `generateAppId` and the `activeApps` map. -/
structure OrchState where
  nextId : Nat
  apps : List (String × OrchestrationContext)

/-- A fresh orchestrator (empty `activeApps`). -/
def initialOrchState : OrchState := ⟨0, []⟩

/-- `generateAppId`, with the time/random pair replaced by the counter. -/
def appIdOf (n : Nat) : String := "app-" ++ toString n

/-- The validation block of `planGeneration`: each failed check appends
its message (no short-circuit). -/
def validationErrors (requirement : AppRequirement) : List String :=
  (if requirement.name = "" ∨ trimStr requirement.name = ""
   then ["App name is required"] else []) ++
  (if requirement.description = "" ∨ trimStr requirement.description = ""
   then ["App description is required"] else []) ++
  (if requirement.features.length = 0
   then ["At least one feature is required"] else [])

/-- `planGeneration`: allocate a fresh appId, build the context with
phase `planning`, register it in `activeApps`, run the validation. -/
def planGeneration (s : OrchState) (requirement : AppRequirement) :
    OrchestrationContext × OrchState :=
  let appId := appIdOf s.nextId
  let context : OrchestrationContext :=
    { appId := appId
      requirement := requirement
      generatedApp := none
      currentPhase := Phase.planning
      errors := validationErrors requirement }
  (context, { nextId := s.nextId + 1, apps := mapSet s.apps appId context })

/-- The inline default `users` table of `generateDatabase`, as the
loosely typed `tables` payload it is sent as. -/
def defaultTablesPayload : JVal :=
  JVal.arr
    [JVal.obj
      [("name", JVal.str "users"),
       ("columns", JVal.arr
         [JVal.obj [("name", JVal.str "id"), ("type", JVal.str "integer"),
                    ("primaryKey", JVal.bool true), ("autoIncrement", JVal.bool true)],
          JVal.obj [("name", JVal.str "email"), ("type", JVal.str "varchar"),
                    ("nullable", JVal.bool false)],
          JVal.obj [("name", JVal.str "name"), ("type", JVal.str "varchar"),
                    ("nullable", JVal.bool false)],
          JVal.obj [("name", JVal.str "created_at"), ("type", JVal.str "timestamp"),
                    ("nullable", JVal.bool false)]])]]

/-- Requirement-supplied `TableDefinition`s as a `tables` payload. -/
def encodeTable (t : TableDefinition) : JVal :=
  JVal.obj
    [("name", JVal.str t.name),
     ("columns", JVal.arr (t.columns.map fun c =>
       JVal.obj ([("name", JVal.str c.name), ("type", JVal.str c.type),
                  ("required", JVal.bool c.required)] ++
         (match c.unique with
          | some u => [("unique", JVal.bool u)]
          | none => []))))]

/-- `generateDatabase`: one `generate-schema` call (with the requirement's
tables or the inline default), one `setup-migrations` call, then the
fixed `schema.sql` / `001_initial.sql` records with the (always absent)
`schema` / `migration` output fields falling back to the literal text. -/
def generateDatabase (exec : ExecFn) (requirement : AppRequirement) :
    Except String (List (String × String) × List (String × String)) × List ToolCall :=
  let schemaInput := JVal.obj
    [("tables", match requirement.databaseTables with
      | some ts => JVal.arr (ts.map encodeTable)
      | none => defaultTablesPayload)]
  let call1 : ToolCall := ("database-service", "generate-schema", schemaInput)
  match exec "database-service" "generate-schema" schemaInput with
  | Except.error e => (Except.error e, [call1])
  | Except.ok schemaResult =>
    let migInput := JVal.obj [("version", JVal.str "001"), ("operation", JVal.str "create_tables")]
    let call2 : ToolCall := ("database-service", "setup-migrations", migInput)
    match exec "database-service" "setup-migrations" migInput with
    | Except.error e => (Except.error e, [call1, call2])
    | Except.ok migrationResult =>
      (Except.ok
        ([("schema.sql", getStrOr schemaResult "schema" "CREATE TABLE users (...)")],
         [("001_initial.sql", getStrOr migrationResult "migration" "CREATE TABLE users (...)")]),
       [call1, call2])

/-- The default endpoints of `generateBackend`. -/
def defaultEndpoints : List APIEndpointDefinition :=
  [⟨"/api/users", "GET", "Get all users"⟩,
   ⟨"/api/users/:id", "GET", "Get user by ID"⟩]

/-- The per-endpoint file name of `generateBackend`:
`${endpoint.path.replace(/\//g, '_')}.ts`. -/
def endpointFileKey (e : APIEndpointDefinition) : String :=
  sanitizePath e.path ++ ".ts"

/-- The `generate-api` input built for one endpoint. -/
def generateAPIInput (e : APIEndpointDefinition) : JVal :=
  JVal.obj
    [("endpoint", JVal.str e.path),
     ("method", JVal.str e.method),
     ("handlers", JVal.arr [JVal.str ("handle" ++ e.method)])]

/-- The per-endpoint loop of `generateBackend`: one `generate-api` call
per endpoint, in order, each assigning
`backendCode[key] = result.code || '// ' + description`. -/
def generateBackendLoop (exec : ExecFn) :
    List APIEndpointDefinition → List (String × String) →
    Except String (List (String × String)) × List ToolCall
  | [], acc => (Except.ok acc, [])
  | e :: rest, acc =>
    let input := generateAPIInput e
    let call : ToolCall := ("backend-service", "generate-api", input)
    match exec "backend-service" "generate-api" input with
    | Except.error er => (Except.error er, [call])
    | Except.ok result =>
      let acc' := mapSet acc (endpointFileKey e)
        (getStrOr result "code" ("// " ++ e.description))
      let r := generateBackendLoop exec rest acc'
      (r.1, call :: r.2)

/-- `JSON.stringify({name, version: '1.0.0', dependencies: {express:
'^4.18.0'}}, null, 2)`. -/
def backendPackageJson (name : String) : String :=
  "\x7b\n  \"name\": \"" ++ name ++ "\",\n  \"version\": \"1.0.0\",\n  \"dependencies\": \x7b\n    \"express\": \"^4.18.0\"\n  \x7d\n\x7d"

/-- `generateBackend`: per-endpoint `generate-api` calls (requirement
endpoints, or the two defaults when absent), one `deploy-backend` call,
then the fixed `index.ts` / `package.json` entries. -/
def generateBackend (exec : ExecFn) (requirement : AppRequirement) :
    Except String (List (String × String)) × List ToolCall :=
  let endpoints := requirement.apiEndpoints.getD defaultEndpoints
  let r := generateBackendLoop exec endpoints []
  match r.1 with
  | Except.error e => (Except.error e, r.2)
  | Except.ok backendCode =>
    let deployInput := JVal.obj
      [("environment", JVal.str "production"),
       ("config", JVal.obj [("port", JVal.num 3000)])]
    let deployCall : ToolCall := ("backend-service", "deploy-backend", deployInput)
    match exec "backend-service" "deploy-backend" deployInput with
    | Except.error e => (Except.error e, r.2 ++ [deployCall])
    | Except.ok _ =>
      (Except.ok
        (mapSet
          (mapSet backendCode "index.ts" "import express from \"express\";\n// Main entry point")
          "package.json" (backendPackageJson requirement.name)),
       r.2 ++ [deployCall])

/-- The default components of `generateFrontend`. -/
def defaultComponents : List UIComponentDefinition :=
  [⟨"UserList", "list", ["/api/users"], none⟩,
   ⟨"UserDetail", "detail", ["/api/users/:id"], none⟩]

/-- The `generate-component` input built for one component. -/
def generateComponentInput (c : UIComponentDefinition) : JVal :=
  JVal.obj
    [("name", JVal.str c.name),
     ("props", JVal.obj [("type", JVal.str c.type)])]

/-- The per-component loop of `generateFrontend`: one `generate-component`
call per component, in order, each assigning
`frontendCode['components/' + name + '.tsx'] = result.code || '// ' + name + ' component'`. -/
def generateFrontendLoop (exec : ExecFn) :
    List UIComponentDefinition → List (String × String) →
    Except String (List (String × String)) × List ToolCall
  | [], acc => (Except.ok acc, [])
  | c :: rest, acc =>
    let input := generateComponentInput c
    let call : ToolCall := ("frontend-service", "generate-component", input)
    match exec "frontend-service" "generate-component" input with
    | Except.error er => (Except.error er, [call])
    | Except.ok result =>
      let acc' := mapSet acc ("components/" ++ c.name ++ ".tsx")
        (getStrOr result "code" ("// " ++ c.name ++ " component"))
      let r := generateFrontendLoop exec rest acc'
      (r.1, call :: r.2)

/-- `JSON.stringify({name: name + '-frontend', version: '1.0.0',
dependencies: {react: '^18.2.0', 'react-dom': '^18.2.0'}}, null, 2)`. -/
def frontendPackageJson (name : String) : String :=
  "\x7b\n  \"name\": \"" ++ name ++ "-frontend\",\n  \"version\": \"1.0.0\",\n  \"dependencies\": \x7b\n    \"react\": \"^18.2.0\",\n    \"react-dom\": \"^18.2.0\"\n  \x7d\n\x7d"

/-- `generateFrontend`: per-component `generate-component` calls
(requirement components, or the two defaults when absent), one
`create-page` and one `deploy-frontend` call, then the fixed `App.tsx` /
`index.tsx` / `package.json` entries. -/
def generateFrontend (exec : ExecFn) (requirement : AppRequirement) :
    Except String (List (String × String)) × List ToolCall :=
  let components := requirement.uiComponents.getD defaultComponents
  let r := generateFrontendLoop exec components []
  match r.1 with
  | Except.error e => (Except.error e, r.2)
  | Except.ok frontendCode =>
    let pageInput := JVal.obj
      [("path", JVal.str "/"),
       ("components", JVal.arr (components.map fun c => JVal.str c.name))]
    let pageCall : ToolCall := ("frontend-service", "create-page", pageInput)
    match exec "frontend-service" "create-page" pageInput with
    | Except.error e => (Except.error e, r.2 ++ [pageCall])
    | Except.ok _ =>
      let deployInput := JVal.obj [("environment", JVal.str "production")]
      let deployCall : ToolCall := ("frontend-service", "deploy-frontend", deployInput)
      match exec "frontend-service" "deploy-frontend" deployInput with
      | Except.error e => (Except.error e, r.2 ++ [pageCall, deployCall])
      | Except.ok _ =>
        (Except.ok
          (mapSet
            (mapSet
              (mapSet frontendCode "App.tsx" "import React from \"react\";\n// Main App component")
              "index.tsx" "import React from \"react\";\nimport ReactDOM from \"react-dom\";")
            "package.json" (frontendPackageJson requirement.name)),
         r.2 ++ [pageCall, deployCall])

/-- The shared failure tail of `generateApp`'s catch block: append
`Generation failed: message` to the (aliased) context and store it under
both its plan key and the outer key. -/
def generateAppFail (s : OrchState) (ctx : OrchestrationContext) (outerId : String)
    (e : String) : OrchState :=
  let ctxE := { ctx with errors := ctx.errors ++ ["Generation failed: " ++ e] }
  { s with apps := mapSet (mapSet s.apps ctx.appId ctxE) outerId ctxE }

/-- `generateApp`: allocate an outer appId, run `planGeneration` (which
allocates its own, separate appId and registers the context under it),
abort on validation errors, otherwise advance the (aliased) context to
`generating`, store it under the outer id as well, run the database,
backend and frontend generators strictly in that order, and on success
assemble the `GeneratedApp` stamped with the outer id and attach it to
the context.  The third component is the sequence of `executeTool` calls
performed. -/
def generateApp (exec : ExecFn) (s : OrchState) (requirement : AppRequirement) :
    Except String GeneratedApp × OrchState × List ToolCall :=
  let appId := appIdOf s.nextId
  let sA : OrchState := { nextId := s.nextId + 1, apps := s.apps }
  let planned := planGeneration sA requirement
  let context := planned.1
  let sB := planned.2
  if context.errors.isEmpty = false then
    (Except.error ("Planning failed: " ++ joinSep ", " context.errors), sB, [])
  else
    let ctx1 := { context with currentPhase := Phase.generating }
    let sC : OrchState := { sB with apps := mapSet (mapSet sB.apps context.appId ctx1) appId ctx1 }
    match generateDatabase exec requirement with
    | (Except.error e, tr1) => (Except.error e, generateAppFail sC ctx1 appId e, tr1)
    | (Except.ok databaseCode, tr1) =>
      match generateBackend exec requirement with
      | (Except.error e, tr2) => (Except.error e, generateAppFail sC ctx1 appId e, tr1 ++ tr2)
      | (Except.ok backendCode, tr2) =>
        match generateFrontend exec requirement with
        | (Except.error e, tr3) =>
          (Except.error e, generateAppFail sC ctx1 appId e, tr1 ++ tr2 ++ tr3)
        | (Except.ok frontendCode, tr3) =>
          let generatedApp : GeneratedApp :=
            { id := appId
              name := requirement.name
              requirement := requirement
              frontendCode := frontendCode
              backendCode := backendCode
              databaseSchema := databaseCode.1
              databaseMigrations := databaseCode.2
              repositoryUrl := none
              defaultBranch := "main"
              status := AppStatus.generated }
          let ctx2 := { ctx1 with generatedApp := some generatedApp }
          let sD : OrchState :=
            { sC with apps := mapSet (mapSet sC.apps ctx1.appId ctx2) appId ctx2 }
          (Except.ok generatedApp, sD, tr1 ++ tr2 ++ tr3)

/-- `getAppStatus`: pure lookup in `activeApps`. -/
def getAppStatus (s : OrchState) (appId : String) : Option OrchestrationContext :=
  alookup appId s.apps

/-- `listApps`: every tracked context, insertion order. -/
def listApps (s : OrchState) : List OrchestrationContext :=
  s.apps.map Prod.snd

/-- `cancelApp`: remove the keyed context if present, otherwise warn and
leave the map unchanged; no `executeTool` call is made (the second
component is the — empty — call record), and nothing can be raised. -/
def cancelApp (s : OrchState) (appId : String) : OrchState × List ToolCall :=
  ({ s with apps := s.apps.filter fun p => p.1 ≠ appId }, [])

/-- The `create-repository` input of `deployApp`. -/
def createRepoInput (app : GeneratedApp) : JVal :=
  JVal.obj
    [("name", JVal.str app.name),
     ("description", JVal.str app.requirement.description),
     ("private", JVal.bool false)]

/-- A path-to-text file list as the `files` payload of `commit-code`. -/
def encodeFiles (files : List (String × String)) : JVal :=
  JVal.arr (files.map fun f =>
    JVal.obj [("path", JVal.str f.1), ("content", JVal.str f.2)])

/-- The file list `deployApp` assembles: every frontend entry under
`frontend/`, every backend entry under `backend/`, every schema entry
under `database/schema/`, every migration entry under
`database/migrations/`. -/
def deployFileList (app : GeneratedApp) : List (String × String) :=
  app.frontendCode.map (fun pc => ("frontend/" ++ pc.1, pc.2)) ++
  app.backendCode.map (fun pc => ("backend/" ++ pc.1, pc.2)) ++
  app.databaseSchema.map (fun pc => ("database/schema/" ++ pc.1, pc.2)) ++
  app.databaseMigrations.map (fun pc => ("database/migrations/" ++ pc.1, pc.2))

/-- The `commit-code` input of `deployApp`. -/
def commitCodeInput (app : GeneratedApp) : JVal :=
  JVal.obj
    [("repository", JVal.str app.name),
     ("files", encodeFiles (deployFileList app)),
     ("message", JVal.str "Initial commit: Generated app code")]

/-- The `setup-workflows` input of `deployApp`. -/
def setupWorkflowsInput (app : GeneratedApp) : JVal :=
  JVal.obj
    [("repository", JVal.str app.name),
     ("workflow", JVal.str "ci-cd")]

/-- `deployApp`: `create-repository`, then `commit-code` carrying every
file of the three bundles with the bundle prefix on each path, then
`setup-workflows`; returns the independently synthesized repository URL.
The second component is the sequence of `executeTool` calls performed. -/
def deployApp (exec : ExecFn) (app : GeneratedApp) :
    Except String String × List ToolCall :=
  let call1 : ToolCall := ("github-service", "create-repository", createRepoInput app)
  match exec "github-service" "create-repository" (createRepoInput app) with
  | Except.error e => (Except.error e, [call1])
  | Except.ok _ =>
    let call2 : ToolCall := ("github-service", "commit-code", commitCodeInput app)
    match exec "github-service" "commit-code" (commitCodeInput app) with
    | Except.error e => (Except.error e, [call1, call2])
    | Except.ok _ =>
      let call3 : ToolCall := ("github-service", "setup-workflows", setupWorkflowsInput app)
      match exec "github-service" "setup-workflows" (setupWorkflowsInput app) with
      | Except.error e => (Except.error e, [call1, call2, call3])
      | Except.ok _ =>
        (Except.ok ("https://github.com/user/" ++ app.name), [call1, call2, call3])

/-! ## Requirement parser (`parseRequirement` and its extractors) -/

/-- The non-blank line split of `parseRequirement`:
`userInput.split('\n').filter(line => line.trim())`. -/
def parseRequirementLines (userInput : String) : List String :=
  (splitOnChar userInput '\n').filter fun line => trimStr line ≠ ""

/-- Does the lowercased line contain the given (lowercase) key? -/
def lineHasKey (key : String) (line : String) : Bool :=
  containsSub (lowerStr line).data key.data

/-- `extractAppName`: the first line containing `name:` (case-insensitive)
yields `line.split(':')[1].trim()`; fallback `'MyApp'`. -/
def extractAppName (lines : List String) : String :=
  match lines.find? (lineHasKey "name:") with
  | some nameLine => trimStr ((splitOnChar nameLine ':').getD 1 "")
  | none => "MyApp"

/-- `extractDescription`: the first line containing `description:`
(case-insensitive) yields `line.split(':')[1].trim()`; fallback
`'A generated application'`. -/
def extractDescription (lines : List String) : String :=
  match lines.find? (lineHasKey "description:") with
  | some descLine => trimStr ((splitOnChar descLine ':').getD 1 "")
  | none => "A generated application"

/-- The scan of `extractFeatures`: after a line containing `features:`,
every line whose trim starts with `-` contributes its dash-stripped trim. -/
def extractFeaturesGo : List String → Bool → List String
  | [], _ => []
  | line :: rest, inFeaturesSection =>
    if lineHasKey "features:" line then
      extractFeaturesGo rest true
    else if inFeaturesSection ∧ (trimStr line).data.head? = some '-' then
      trimStr (String.mk ((trimStr line).data.drop 1)) :: extractFeaturesGo rest inFeaturesSection
    else
      extractFeaturesGo rest inFeaturesSection

/-- `extractFeatures`, with the fixed two-item default. -/
def extractFeatures (lines : List String) : List String :=
  let features := extractFeaturesGo lines false
  if features.length > 0 then features else ["User management", "Data CRUD"]

/-- `parseRequirement`: line split plus the three extractors; no table /
endpoint / component extraction is attempted. -/
def parseRequirement (userInput : String) : AppRequirement :=
  let lines := parseRequirementLines userInput
  { name := extractAppName lines
    description := extractDescription lines
    features := extractFeatures lines
    databaseTables := none
    apiEndpoints := none
    uiComponents := none }

/-- The independent `extractAppName` reading the specification's words
describe: the text after the first colon of the first matching line
(trimmed) — kept separate so it can be compared with the source's
`split(':')[1]` behaviour. -/
def specExtractAppName (lines : List String) : String :=
  match lines.find? (lineHasKey "name:") with
  | some nameLine => trimStr (joinSep ":" ((splitOnChar nameLine ':').drop 1))
  | none => "MyApp"

/-! ## Helper lemmas -/

/-- `Except.isOk`. -/
def isOkE {ε α : Type} : Except ε α → Bool
  | Except.ok _ => true
  | Except.error _ => false

/-- The record under a successful generator result (empty on failure). -/
def okRecordD : Except String (List (String × String)) → List (String × String)
  | Except.ok m => m
  | Except.error _ => []

theorem mem_recordKeys_iff {α : Type} (k : String) (m : List (String × α)) :
    k ∈ recordKeys m ↔ ∃ p ∈ m, p.1 = k := by
  simp [recordKeys, List.mem_map]

theorem alookup_eq_none_of_forall {α : Type} (k : String) (m : List (String × α))
    (h : ∀ p ∈ m, p.1 ≠ k) : alookup k m = none := by
  induction m with
  | nil => rfl
  | cons p t ih =>
    simp only [alookup]
    rw [if_neg (h p (by simp))]
    exact ih fun q hq => h q (by simp [hq])

theorem alookup_eq_none_of_not_mem {α : Type} (k : String) (m : List (String × α))
    (h : k ∉ recordKeys m) : alookup k m = none := by
  refine alookup_eq_none_of_forall k m fun p hp hpk => h ?_
  exact (mem_recordKeys_iff k m).mpr ⟨p, hp, hpk⟩

theorem alookup_append_of_none {α : Type} (k : String) (m l : List (String × α))
    (h : alookup k m = none) : alookup k (m ++ l) = alookup k l := by
  induction m with
  | nil => rfl
  | cons p t ih =>
    simp only [alookup] at h ⊢
    rcases em (p.1 = k) with hp | hp
    · rw [if_pos hp] at h; cases h
    · rw [if_neg hp] at h ⊢
      exact ih h

theorem mapSet_fresh {α : Type} (m : List (String × α)) (k : String) (v : α)
    (h : k ∉ recordKeys m) : mapSet m k v = m ++ [(k, v)] := by
  unfold mapSet
  rw [if_neg h]

theorem mapSet_update_middle {α : Type} (m l : List (String × α)) (k : String) (v w : α)
    (hm : ∀ p ∈ m, p.1 ≠ k) (hl : ∀ p ∈ l, p.1 ≠ k) :
    mapSet (m ++ (k, v) :: l) k w = m ++ (k, w) :: l := by
  unfold mapSet
  rw [if_pos]
  · rw [List.map_append, List.map_cons]
    congr 1
    · refine (List.map_congr_left fun p hp => ?_).trans (List.map_id m)
      rw [if_neg (hm p hp)]; rfl
    · congr 1
      · rw [if_pos rfl]
      · refine (List.map_congr_left fun p hp => ?_).trans (List.map_id l)
        rw [if_neg (hl p hp)]; rfl
  · rw [mem_recordKeys_iff]
    exact ⟨(k, v), by simp⟩

theorem recordKeys_append {α : Type} (m l : List (String × α)) :
    recordKeys (m ++ l) = recordKeys m ++ recordKeys l := by
  simp [recordKeys]

theorem forall_fst_ne_of_not_mem {α : Type} (k : String) (m : List (String × α))
    (h : k ∉ recordKeys m) : ∀ p ∈ m, p.1 ≠ k := by
  intro p hp hpk
  exact h ((mem_recordKeys_iff k m).mpr ⟨p, hp, hpk⟩)

theorem strAppendData (s t : String) : (s ++ t).data = s.data ++ t.data := by
  cases s; cases t; rfl

theorem strExt (s t : String) (h : s.data = t.data) : s = t :=
  congrArg String.mk h

theorem strAppendCancel (p : String) : Function.Injective (fun a => p ++ a) := by
  intro a b h
  refine strExt a b (List.append_cancel_left (show p.data ++ a.data = p.data ++ b.data from ?_))
  rw [← strAppendData, ← strAppendData]
  exact congrArg String.data h

theorem strPrefixNe (i : Nat) (p q : String) (hip : i < p.data.length)
    (hiq : i < q.data.length) (hne : p.data.getD i ' ' ≠ q.data.getD i ' ') :
    ∀ a b : String, p ++ a ≠ q ++ b := by
  intro a b h
  apply hne
  have h2 := congrArg (fun s : String => s.data.getD i ' ') h
  simp only [strAppendData, List.getD] at h2 ⊢
  rw [List.get?_append hip, List.get?_append hiq] at h2
  exact h2

/-! ## Claims -/

/-- Claim C2: for every state of the registry's provider map, `invoke`
fails with a NotFound condition when the named provider is not
registered; fails with an Unhealthy condition when the provider's
liveness check returns false; fails with an OperationNotFound condition
when the named operation does not exist on the provider; and otherwise
invokes the operation and returns its output mapping verbatim,
propagating any failure the operation raises. -/
theorem invoke_dispatch_cases (reg : Registry) (providerName operationName : String)
    (input : JVal) :
    (alookup providerName reg = none →
      invoke reg providerName operationName input =
        Except.error (InvokeError.notFound providerName)) ∧
    (∀ provider, alookup providerName reg = some provider →
      isHealthyServer provider.state = false →
      invoke reg providerName operationName input =
        Except.error (InvokeError.unhealthy providerName)) ∧
    (∀ provider, alookup providerName reg = some provider →
      isHealthyServer provider.state = true →
      alookup operationName provider.tools = none →
      invoke reg providerName operationName input =
        Except.error (InvokeError.opNotFound providerName operationName)) ∧
    (∀ provider op, alookup providerName reg = some provider →
      isHealthyServer provider.state = true →
      alookup operationName provider.tools = some op →
      ((∀ output, op input = Except.ok output →
         invoke reg providerName operationName input = Except.ok output) ∧
       (∀ e, op input = Except.error e →
         invoke reg providerName operationName input =
           Except.error (InvokeError.opFailed e)))) := by
  refine ⟨fun h => ?_, fun prov h hh => ?_, fun prov h hh hop => ?_,
    fun prov op h hh hop => ⟨fun output hout => ?_, fun e herr => ?_⟩⟩
  · simp [invoke, h]
  · simp [invoke, h, hh]
  · simp [invoke, h, hh, hop]
  · simp [invoke, h, hh, hop, hout]
  · simp [invoke, h, hh, hop, herr]

/-- Witness for C2: each branch of `invoke` exercised at a concrete
registry. -/
theorem invoke_dispatch_cases_witness :
    invoke [] "x" "y" JVal.undef = Except.error (InvokeError.notFound "x") ∧
    invoke [("p", ⟨⟨false, false⟩, []⟩)] "p" "y" JVal.undef =
      Except.error (InvokeError.unhealthy "p") ∧
    invoke [("p", ⟨⟨true, true⟩, []⟩)] "p" "y" JVal.undef =
      Except.error (InvokeError.opNotFound "p" "y") ∧
    invoke theRegistry "github-service" "create-branch" (JVal.obj []) =
      Except.ok (ghCreateBranch (JVal.obj [])) := by
  refine ⟨(invoke_dispatch_cases [] "x" "y" JVal.undef).1 rfl,
    (invoke_dispatch_cases _ "p" "y" JVal.undef).2.1 _ rfl rfl,
    (invoke_dispatch_cases _ "p" "y" JVal.undef).2.2.1 _ rfl rfl rfl,
    ((invoke_dispatch_cases theRegistry "github-service" "create-branch"
      (JVal.obj [])).2.2.2 _ (liftTool ghCreateBranch) rfl rfl rfl).1 _ rfl⟩

/-- Claim C7 (amended): for each of the four tool-provider servers,
`isHealthy` is false on a freshly constructed server, true after
`initialize`, false after `shutdown`, and executing any operation leaves
the server's initialized/healthy state unchanged.  (The claim's further
assertion that no operation succeeds before `initialize` fails; see the
counterexample.) -/
theorem mcpServer_lifecycle :
    isHealthyServer serverInitialState = false ∧
    (∀ s, isHealthyServer (initServer s) = true) ∧
    (∀ s, isHealthyServer (shutdownServer s) = false) ∧
    (∀ s op input, (runTool backendServerTools s op input).1 = s) ∧
    (∀ s op input, (runTool frontendServerTools s op input).1 = s) ∧
    (∀ s op input, (runTool databaseServerTools s op input).1 = s) ∧
    (∀ s op input, (runTool githubServerTools s op input).1 = s) :=
  ⟨rfl, fun _ => rfl, fun _ => rfl, fun _ _ _ => rfl, fun _ _ _ => rfl,
   fun _ _ _ => rfl, fun _ _ _ => rfl⟩

/-- Counterexample to claim C7 as stated: on a never-initialized backend
server (whose liveness check is false), the `generate-api` operation
still executes and returns a successful output — the server operations
do not consult the initialized flag. -/
theorem serverOp_succeeds_uninitialized :
    isHealthyServer serverInitialState = false ∧
    (runTool backendServerTools serverInitialState "generate-api"
      (JVal.obj [("endpoint", JVal.str "/api/users"), ("method", JVal.str "GET"),
                 ("handlers", JVal.arr [JVal.str "handleGET"])])).2 =
      some (backendGenerateAPI
        (JVal.obj [("endpoint", JVal.str "/api/users"), ("method", JVal.str "GET"),
                   ("handlers", JVal.arr [JVal.str "handleGET"])])) ∧
    jGet (backendGenerateAPI
      (JVal.obj [("endpoint", JVal.str "/api/users"), ("method", JVal.str "GET"),
                 ("handlers", JVal.arr [JVal.str "handleGET"])])) "success" =
      JVal.bool true :=
  ⟨rfl, rfl, rfl⟩

/-- The requirement of the concrete scenario: `{name: "Blog",
description: "A blog", features: ["posts"]}` with no tables, endpoints
or components supplied. -/
def blogReq : AppRequirement :=
  { name := "Blog", description := "A blog", features := ["posts"],
    databaseTables := none, apiEndpoints := none, uiComponents := none }

/-- The `GeneratedApp` the Blog scenario produces: the three code bundles
reflect the default synthetic table (fallback schema/migration text),
the two default endpoints and the two default components. -/
def blogApp : GeneratedApp :=
  { id := "app-0"
    name := "Blog"
    requirement := blogReq
    frontendCode :=
      [("components/UserList.tsx", "// UserList component"),
       ("components/UserDetail.tsx", "// UserDetail component"),
       ("App.tsx", "import React from \"react\";\n// Main App component"),
       ("index.tsx", "import React from \"react\";\nimport ReactDOM from \"react-dom\";"),
       ("package.json", frontendPackageJson "Blog")]
    backendCode :=
      [("_api_users.ts", "// Get all users"),
       ("_api_users_:id.ts", "// Get user by ID"),
       ("index.ts", "import express from \"express\";\n// Main entry point"),
       ("package.json", backendPackageJson "Blog")]
    databaseSchema := [("schema.sql", "CREATE TABLE users (...)")]
    databaseMigrations := [("001_initial.sql", "CREATE TABLE users (...)")]
    repositoryUrl := none
    defaultBranch := "main"
    status := AppStatus.generated }

/-- The context tracked for the Blog scenario: its own `appId` is the one
`planGeneration` allocated, distinct from the id on the app. -/
def blogCtx : OrchestrationContext :=
  { appId := "app-1", requirement := blogReq, generatedApp := some blogApp,
    currentPhase := Phase.generating, errors := [] }

/-- Claim C1: for the Blog requirement with no tables/endpoints/components
supplied, `generateApp` succeeds, the returned `GeneratedApp` reflects
the default synthetic table/endpoints/components in its three code
bundles, and `getAppStatus` at the returned app's id yields a context
whose `generatedApp`'s id equals the looked-up id, even though the
context's own `appId` was allocated separately by the internal
`planGeneration` call. -/
theorem generateApp_blog_scenario :
    (generateApp realExec initialOrchState blogReq).1 = Except.ok blogApp ∧
    getAppStatus (generateApp realExec initialOrchState blogReq).2.1 blogApp.id =
      some blogCtx ∧
    blogCtx.generatedApp = some blogApp ∧
    blogApp.id = "app-0" ∧
    blogCtx.appId = "app-1" ∧
    blogCtx.appId ≠ blogApp.id :=
  ⟨rfl, rfl, rfl, rfl, rfl, by decide⟩

/-- Claim C4: whenever planning produces validation errors, `generateApp`
signals a Planning failure, attaches no `GeneratedApp` (the only map
change is the planning context, whose `generatedApp` is `none`), and
performs no `executeTool` calls. -/
theorem generateApp_planning_failure (exec : ExecFn) (s : OrchState)
    (req : AppRequirement) (h : validationErrors req ≠ []) :
    generateApp exec s req =
      (Except.error ("Planning failed: " ++ joinSep ", " (validationErrors req)),
       { nextId := s.nextId + 1 + 1,
         apps := mapSet s.apps (appIdOf (s.nextId + 1))
           { appId := appIdOf (s.nextId + 1), requirement := req, generatedApp := none,
             currentPhase := Phase.planning, errors := validationErrors req } },
       ([] : List ToolCall)) := by
  unfold generateApp planGeneration
  have hne : (validationErrors req).isEmpty = false := by
    cases hv : validationErrors req with
    | nil => exact absurd hv h
    | cons a t => rfl
  simp only [hne]
  rfl

/-- A blank-name requirement. -/
def blankNameReq : AppRequirement :=
  { name := "", description := "A blog", features := ["posts"],
    databaseTables := none, apiEndpoints := none, uiComponents := none }

/-- Witness for C4: the blank-name requirement. -/
theorem generateApp_planning_failure_witness :
    generateApp realExec initialOrchState blankNameReq =
      (Except.error "Planning failed: App name is required",
       { nextId := 2,
         apps := [("app-1",
           { appId := "app-1", requirement := blankNameReq,
             generatedApp := none, currentPhase := Phase.planning,
             errors := ["App name is required"] })] },
       ([] : List ToolCall)) := by
  exact generateApp_planning_failure realExec initialOrchState blankNameReq (by decide)

/-- Claim C3: `planGeneration` returns a context in phase `planning`
whose error list carries exactly one distinct message per failed check
(blank/missing name, blank/missing description, empty/missing feature
list), without short-circuiting; in particular a fully valid requirement
yields no errors, and one missing both name and description yields
exactly those two errors. -/
theorem planGeneration_validation (s : OrchState) (req : AppRequirement) :
    (planGeneration s req).1.currentPhase = Phase.planning ∧
    (planGeneration s req).1.errors.Nodup ∧
    ("App name is required" ∈ (planGeneration s req).1.errors ↔
      (req.name = "" ∨ trimStr req.name = "")) ∧
    ("App description is required" ∈ (planGeneration s req).1.errors ↔
      (req.description = "" ∨ trimStr req.description = "")) ∧
    ("At least one feature is required" ∈ (planGeneration s req).1.errors ↔
      req.features = []) ∧
    (planGeneration s req).1.errors.length =
      ((if req.name = "" ∨ trimStr req.name = "" then 1 else 0) +
       (if req.description = "" ∨ trimStr req.description = "" then 1 else 0) +
       (if req.features = [] then 1 else 0)) ∧
    (¬(req.name = "" ∨ trimStr req.name = "") →
     ¬(req.description = "" ∨ trimStr req.description = "") →
     req.features ≠ [] → (planGeneration s req).1.errors = []) ∧
    ((req.name = "" ∨ trimStr req.name = "") →
     (req.description = "" ∨ trimStr req.description = "") →
     req.features ≠ [] →
     (planGeneration s req).1.errors =
       ["App name is required", "App description is required"]) := by
  have herr : (planGeneration s req).1.errors = validationErrors req := rfl
  have hph : (planGeneration s req).1.currentPhase = Phase.planning := rfl
  rw [herr, hph]
  unfold validationErrors
  by_cases h1 : req.name = "" ∨ trimStr req.name = "" <;>
    by_cases h2 : req.description = "" ∨ trimStr req.description = "" <;>
    by_cases h3 : req.features = [] <;>
    simp [h1, h2, h3, List.length_eq_zero]

/-- Witness for C3: the valid and the doubly invalid requirement. -/
theorem planGeneration_validation_witness :
    (planGeneration initialOrchState
      { name := "Blog", description := "A blog", features := ["posts"],
        databaseTables := none, apiEndpoints := none, uiComponents := none }).1.errors = [] ∧
    (planGeneration initialOrchState
      { name := "", description := " ", features := ["posts"],
        databaseTables := none, apiEndpoints := none, uiComponents := none }).1.errors =
      ["App name is required", "App description is required"] := by
  refine ⟨(planGeneration_validation initialOrchState _).2.2.2.2.2.2.1 ?_ ?_ ?_,
    (planGeneration_validation initialOrchState _).2.2.2.2.2.2.2 ?_ ?_ ?_⟩ <;> decide


theorem alookup_filter_self {α : Type} (k : String) (m : List (String × α)) :
    alookup k (m.filter fun p => p.1 ≠ k) = none := by
  induction m with
  | nil => rfl
  | cons p t ih =>
    obtain ⟨k', v⟩ := p
    rw [List.filter_cons]
    by_cases hp : k' = k
    · rw [if_neg (by simp [hp])]
      exact ih
    · rw [if_pos (by simp [hp])]
      rw [alookup, if_neg hp]
      exact ih

theorem alookup_filter_other {α : Type} (k k' : String) (m : List (String × α))
    (h : k' ≠ k) : alookup k' (m.filter fun p => p.1 ≠ k) = alookup k' m := by
  induction m with
  | nil => rfl
  | cons p t ih =>
    obtain ⟨k0, v⟩ := p
    rw [List.filter_cons]
    by_cases hp : k0 = k
    · rw [if_neg (by simp [hp])]
      rw [ih, alookup, if_neg (by rw [hp]; exact fun hk => h hk.symm)]
    · rw [if_pos (by simp [hp])]
      rw [alookup, alookup]
      by_cases hk0 : k0 = k'
      · rw [if_pos hk0, if_pos hk0]
      · rw [if_neg hk0, if_neg hk0]
        exact ih

theorem filter_length_of_mem {α : Type} (k : String) (m : List (String × α))
    (hnd : (recordKeys m).Nodup) (hmem : k ∈ recordKeys m) :
    (m.filter fun p => p.1 ≠ k).length + 1 = m.length := by
  induction m with
  | nil => cases hmem
  | cons p t ih =>
    obtain ⟨k0, v⟩ := p
    simp only [recordKeys, List.map_cons, List.nodup_cons] at hnd
    rw [List.filter_cons]
    have hmem' : k = k0 ∨ k ∈ recordKeys t := by
      have hre : recordKeys ((k0, v) :: t) = k0 :: recordKeys t := rfl
      rw [hre] at hmem
      exact List.mem_cons.mp hmem
    rcases hmem' with hk | hk
    · rw [if_neg (by simp [hk])]
      have hall : ∀ q ∈ t, (fun p : String × α => decide (p.1 ≠ k)) q = true := by
        intro q hq
        simp only [decide_eq_true_eq]
        intro hqk
        have hq1 : q.1 ∈ List.map Prod.fst t := List.mem_map_of_mem Prod.fst hq
        rw [hqk, hk] at hq1
        exact hnd.1 hq1
      rw [List.filter_eq_self.mpr hall]
      simp
    · have hk0 : k0 ≠ k := by
        intro hp
        exact hnd.1 (hp.symm ▸ hk)
      rw [if_pos (by simp [hk0])]
      simp only [List.length_cons]
      rw [ih hnd.2 hk]

/-- Claim C9: `cancelApp` never calls the provider registry and cannot
raise; on an absent appId it leaves the state unchanged; on a present
appId (for a well-formed map) it removes exactly that entry, leaving the
lookup of every other key and the id counter untouched. -/
theorem cancelApp_frame (s : OrchState) (appId : String) :
    (cancelApp s appId).2 = ([] : List ToolCall) ∧
    (cancelApp s appId).1.nextId = s.nextId ∧
    ((∀ p ∈ s.apps, p.1 ≠ appId) → (cancelApp s appId).1 = s) ∧
    getAppStatus (cancelApp s appId).1 appId = none ∧
    (∀ k, k ≠ appId → getAppStatus (cancelApp s appId).1 k = getAppStatus s k) ∧
    ((recordKeys s.apps).Nodup → appId ∈ recordKeys s.apps →
      (cancelApp s appId).1.apps.length + 1 = s.apps.length) := by
  refine ⟨rfl, rfl, fun h => ?_, ?_, fun k hk => ?_, fun hnd hmem => ?_⟩
  · have hfil : s.apps.filter (fun p => p.1 ≠ appId) = s.apps :=
      List.filter_eq_self.mpr fun p hp => by simpa using h p hp
    show ({ s with apps := s.apps.filter fun p => p.1 ≠ appId } : OrchState) = s
    rw [hfil]
  · exact alookup_filter_self appId s.apps
  · exact alookup_filter_other appId k s.apps hk
  · exact filter_length_of_mem appId s.apps hnd hmem

/-- A two-entry orchestrator state used by the cancel witness. -/
def cancelSampleState : OrchState :=
  { nextId := 2,
    apps :=
      [("app-0", { appId := "app-0", requirement := blogReq, generatedApp := none,
                   currentPhase := Phase.planning, errors := [] }),
       ("app-1", { appId := "app-1", requirement := blogReq, generatedApp := none,
                   currentPhase := Phase.planning, errors := [] })] }

/-- Witness for C9: cancelling an unknown id is a strict no-op; cancelling
a present id removes exactly it. -/
theorem cancelApp_frame_witness :
    (cancelApp cancelSampleState "missing").1 = cancelSampleState ∧
    getAppStatus (cancelApp cancelSampleState "app-0").1 "app-0" = none ∧
    getAppStatus (cancelApp cancelSampleState "app-0").1 "app-1" =
      getAppStatus cancelSampleState "app-1" ∧
    (cancelApp cancelSampleState "app-0").1.apps.length + 1 =
      cancelSampleState.apps.length := by
  refine ⟨(cancelApp_frame cancelSampleState "missing").2.2.1 ?_,
    (cancelApp_frame cancelSampleState "app-0").2.2.2.1,
    (cancelApp_frame cancelSampleState "app-0").2.2.2.2.1 "app-1" ?_,
    (cancelApp_frame cancelSampleState "app-0").2.2.2.2.2 ?_ ?_⟩ <;> decide

theorem find?_append_first {α : Type} (p : α → Bool) :
    ∀ (pre : List α) (x : α) (post : List α),
      (∀ y ∈ pre, p y = false) → p x = true →
      List.find? p (pre ++ x :: post) = some x := by
  intro pre
  induction pre with
  | nil =>
    intro x post _ hx
    simp [List.find?, hx]
  | cons a t ih =>
    intro x post hpre hx
    have ha : p a = false := hpre a (by simp)
    simp only [List.cons_append, List.find?, ha]
    exact ih x post (fun y hy => hpre y (by simp [hy])) hx

/-- Counterexample to claim C8 as stated: on the line `name: a:b` the
extractor returns only the text between the first and second colons
(`a`), not the text after the first colon (`a:b`) that the claim
describes (`specExtractAppName` reads the claim's words). -/
theorem extractAppName_colon_counterexample :
    extractAppName (parseRequirementLines "name: a:b") = "a" ∧
    specExtractAppName (parseRequirementLines "name: a:b") = "a:b" ∧
    extractAppName (parseRequirementLines "name: a:b") ≠
      specExtractAppName (parseRequirementLines "name: a:b") :=
  ⟨rfl, rfl, by decide⟩

/-- Claim C8 (amended): `parseRequirement` splits its input into non-blank
lines; the app name comes from the first line containing `name:`
(case-insensitively), as the text *between the first and second colons*
of that line, trimmed (`split(':')[1]`), defaulting to `MyApp` when no
such line exists; the description is extracted the same way from the
first line containing `description:`, defaulting to
`A generated application`. -/
theorem extract_name_description_algorithm (input : String) :
    ((∀ l ∈ parseRequirementLines input, lineHasKey "name:" l = false) →
      extractAppName (parseRequirementLines input) = "MyApp") ∧
    (∀ pre line post, parseRequirementLines input = pre ++ line :: post →
      (∀ l ∈ pre, lineHasKey "name:" l = false) → lineHasKey "name:" line = true →
      extractAppName (parseRequirementLines input) =
        trimStr ((splitOnChar line ':').getD 1 "")) ∧
    ((∀ l ∈ parseRequirementLines input, lineHasKey "description:" l = false) →
      extractDescription (parseRequirementLines input) = "A generated application") ∧
    (∀ pre line post, parseRequirementLines input = pre ++ line :: post →
      (∀ l ∈ pre, lineHasKey "description:" l = false) →
      lineHasKey "description:" line = true →
      extractDescription (parseRequirementLines input) =
        trimStr ((splitOnChar line ':').getD 1 "")) := by
  refine ⟨fun h => ?_, fun pre line post hsplit hpre hline => ?_,
    fun h => ?_, fun pre line post hsplit hpre hline => ?_⟩
  · unfold extractAppName
    rw [List.find?_eq_none.mpr (by intro x hx; simp [h x hx])]
  · unfold extractAppName
    rw [hsplit, find?_append_first _ pre line post hpre hline]
  · unfold extractDescription
    rw [List.find?_eq_none.mpr (by intro x hx; simp [h x hx])]
  · unfold extractDescription
    rw [hsplit, find?_append_first _ pre line post hpre hline]

/-- Witness for C8: a two-line input with both keys present, and a
key-free input falling back to both defaults. -/
theorem extract_name_description_algorithm_witness :
    extractAppName (parseRequirementLines "Name: Foo\nDescription: Bar") = "Foo" ∧
    extractDescription (parseRequirementLines "Name: Foo\nDescription: Bar") = "Bar" ∧
    extractAppName (parseRequirementLines "hello") = "MyApp" ∧
    extractDescription (parseRequirementLines "hello") = "A generated application" := by
  refine ⟨(extract_name_description_algorithm "Name: Foo\nDescription: Bar").2.1
      [] "Name: Foo" ["Description: Bar"] ?_ ?_ ?_,
    (extract_name_description_algorithm "Name: Foo\nDescription: Bar").2.2.2
      ["Name: Foo"] "Description: Bar" [] ?_ ?_ ?_,
    (extract_name_description_algorithm "hello").1 ?_,
    (extract_name_description_algorithm "hello").2.2.1 ?_⟩ <;> decide

theorem disjoint_prefixed (p q : String) (h : ∀ a b : String, p ++ a ≠ q ++ b)
    (l1 l2 : List String) :
    (l1.map fun x => p ++ x).Disjoint (l2.map fun x => q ++ x) := by
  intro a ha hb
  obtain ⟨x, _, rfl⟩ := List.mem_map.mp ha
  obtain ⟨y, _, heq⟩ := List.mem_map.mp hb
  exact h x y heq.symm

/-- Claim C5: the file list `deployApp` hands to the github provider's
`commit-code` operation is exactly the union of the frontend bundle
prefixed by `frontend/`, the backend bundle prefixed by `backend/`, the
schema bundle prefixed by `database/schema/` and the migrations bundle
prefixed by `database/migrations/` — no omissions (the length is the sum
of the four bundle sizes and the call carries the whole union) and, for
well-formed bundles, no duplicate paths. -/
theorem deployApp_commit_file_list (exec : ExecFn) (app : GeneratedApp)
    (hok : isOkE (exec "github-service" "create-repository" (createRepoInput app)) = true) :
    (∃ rest, (deployApp exec app).2 =
      ("github-service", "create-repository", createRepoInput app) ::
      ("github-service", "commit-code", JVal.obj
        [("repository", JVal.str app.name),
         ("files", encodeFiles
           (app.frontendCode.map (fun pc => ("frontend/" ++ pc.1, pc.2)) ++
            app.backendCode.map (fun pc => ("backend/" ++ pc.1, pc.2)) ++
            app.databaseSchema.map (fun pc => ("database/schema/" ++ pc.1, pc.2)) ++
            app.databaseMigrations.map (fun pc => ("database/migrations/" ++ pc.1, pc.2)))),
         ("message", JVal.str "Initial commit: Generated app code")]) :: rest) ∧
    (deployFileList app).length =
      app.frontendCode.length + app.backendCode.length +
      app.databaseSchema.length + app.databaseMigrations.length ∧
    ((recordKeys app.frontendCode).Nodup → (recordKeys app.backendCode).Nodup →
     (recordKeys app.databaseSchema).Nodup → (recordKeys app.databaseMigrations).Nodup →
     ((deployFileList app).map Prod.fst).Nodup) := by
  refine ⟨?_, by simp [deployFileList]; omega, fun hf hb hs hm => ?_⟩
  · rcases hre : exec "github-service" "create-repository" (createRepoInput app) with e | r
    · rw [hre] at hok; cases hok
    · rcases hc2 : exec "github-service" "commit-code" (commitCodeInput app) with e | r2
      · refine ⟨[], ?_⟩
        simp only [deployApp, hre, hc2]
        rfl
      · rcases hc3 : exec "github-service" "setup-workflows" (setupWorkflowsInput app) with e | r3
        · refine ⟨[("github-service", "setup-workflows", setupWorkflowsInput app)], ?_⟩
          simp only [deployApp, hre, hc2, hc3]
          rfl
        · refine ⟨[("github-service", "setup-workflows", setupWorkflowsInput app)], ?_⟩
          simp only [deployApp, hre, hc2, hc3]
          rfl
  · have hpaths : (deployFileList app).map Prod.fst =
        ((recordKeys app.frontendCode).map fun x => "frontend/" ++ x) ++
        ((recordKeys app.backendCode).map fun x => "backend/" ++ x) ++
        ((recordKeys app.databaseSchema).map fun x => "database/schema/" ++ x) ++
        ((recordKeys app.databaseMigrations).map fun x => "database/migrations/" ++ x) := by
      simp [deployFileList, recordKeys, List.map_append, List.map_map, Function.comp_def]
    rw [hpaths]
    have hfb : ∀ a b : String, "frontend/" ++ a ≠ "backend/" ++ b :=
      strPrefixNe 0 _ _ (by decide) (by decide) (by decide)
    have hfs : ∀ a b : String, "frontend/" ++ a ≠ "database/schema/" ++ b :=
      strPrefixNe 0 _ _ (by decide) (by decide) (by decide)
    have hfm : ∀ a b : String, "frontend/" ++ a ≠ "database/migrations/" ++ b :=
      strPrefixNe 0 _ _ (by decide) (by decide) (by decide)
    have hbs : ∀ a b : String, "backend/" ++ a ≠ "database/schema/" ++ b :=
      strPrefixNe 0 _ _ (by decide) (by decide) (by decide)
    have hbm : ∀ a b : String, "backend/" ++ a ≠ "database/migrations/" ++ b :=
      strPrefixNe 0 _ _ (by decide) (by decide) (by decide)
    have hsm : ∀ a b : String, "database/schema/" ++ a ≠ "database/migrations/" ++ b :=
      strPrefixNe 9 _ _ (by decide) (by decide) (by decide)
    simp only [List.nodup_append, List.disjoint_append_right, List.disjoint_append_left]
    refine ⟨⟨⟨hf.map (strAppendCancel "frontend/"), hb.map (strAppendCancel "backend/"),
      disjoint_prefixed _ _ hfb _ _⟩,
      hs.map (strAppendCancel "database/schema/"),
      ⟨disjoint_prefixed _ _ hfs _ _, disjoint_prefixed _ _ hbs _ _⟩⟩,
      hm.map (strAppendCancel "database/migrations/"),
      ⟨⟨disjoint_prefixed _ _ hfm _ _, disjoint_prefixed _ _ hbm _ _⟩,
       disjoint_prefixed _ _ hsm _ _⟩⟩

/-- A small generated app used by the deploy witness. -/
def deploySampleApp : GeneratedApp :=
  { id := "app-7", name := "Sample", requirement := blogReq,
    frontendCode := [("App.tsx", "fa"), ("index.tsx", "fb")],
    backendCode := [("index.ts", "ba")],
    databaseSchema := [("schema.sql", "sa")],
    databaseMigrations := [("001_initial.sql", "ma")],
    repositoryUrl := none, defaultBranch := "main", status := AppStatus.generated }

/-- Witness for C5: the sample app against the real registry. -/
theorem deployApp_commit_file_list_witness :
    (deployFileList deploySampleApp).length = 2 + 1 + 1 + 1 ∧
    ((deployFileList deploySampleApp).map Prod.fst).Nodup := by
  have h := deployApp_commit_file_list realExec deploySampleApp (by rfl)
  exact ⟨h.2.1, h.2.2 (by decide) (by decide) (by decide) (by decide)⟩

theorem generateBackendLoop_keys (exec : ExecFn) :
    ∀ (eps : List APIEndpointDefinition) (acc m : List (String × String))
      (tr : List ToolCall),
      generateBackendLoop exec eps acc = (Except.ok m, tr) →
      (∀ e ∈ eps, endpointFileKey e ∉ recordKeys acc) →
      (eps.map endpointFileKey).Nodup →
      recordKeys m = recordKeys acc ++ eps.map endpointFileKey := by
  intro eps
  induction eps with
  | nil =>
    intro acc m tr h _ _
    simp only [generateBackendLoop] at h
    have h1 : (Except.ok acc : Except String (List (String × String))) = Except.ok m := by
      simpa using congrArg Prod.fst h
    cases h1
    simp
  | cons e rest ih =>
    intro acc m tr h hfresh hnd
    simp only [generateBackendLoop] at h
    rcases hex : exec "backend-service" "generate-api" (generateAPIInput e) with er | result
    · rw [hex] at h
      cases h
    · rw [hex] at h
      simp only at h
      rcases hl : generateBackendLoop exec rest (mapSet acc (endpointFileKey e)
        (getStrOr result "code" ("// " ++ e.description))) with ⟨r1, r2⟩
      rw [hl] at h
      have hh1 : r1 = Except.ok m := by simpa using congrArg Prod.fst h
      subst hh1
      have hkey : endpointFileKey e ∉ recordKeys acc := hfresh e (by simp)
      have hacc' : mapSet acc (endpointFileKey e)
          (getStrOr result "code" ("// " ++ e.description)) =
          acc ++ [(endpointFileKey e, getStrOr result "code" ("// " ++ e.description))] :=
        mapSet_fresh _ _ _ hkey
      simp only [List.map_cons, List.nodup_cons] at hnd
      have hfresh' : ∀ e' ∈ rest, endpointFileKey e' ∉ recordKeys
          (mapSet acc (endpointFileKey e) (getStrOr result "code" ("// " ++ e.description))) := by
        intro e' he'
        rw [hacc', recordKeys_append]
        simp only [List.mem_append]
        rintro (hin | hin)
        · exact hfresh e' (by simp [he']) hin
        · have heq : endpointFileKey e' = endpointFileKey e := by
            simpa [recordKeys] using hin
          exact hnd.1 (heq ▸ List.mem_map_of_mem endpointFileKey he')
      have hrec := ih _ m r2 hl hfresh' hnd.2
      rw [hrec, hacc', recordKeys_append]
      simp [recordKeys]

theorem endpointFileKey_head (e : APIEndpointDefinition)
    (h : e.path.data.head? = some '/') :
    (endpointFileKey e).data.head? = some '_' := by
  unfold endpointFileKey sanitizePath
  rw [strAppendData]
  cases hd : e.path.data with
  | nil => rw [hd] at h; cases h
  | cons c t =>
    rw [hd] at h
    have hc : c = '/' := by simpa using h
    subst hc
    simp

/-- Claim C6 (amended): for a requirement supplying N endpoints whose
derived file names (`path` with `/` replaced by `_`, suffixed `.ts`) are
pairwise distinct and whose paths start with `/`, the backend bundle on
success holds exactly the N endpoint files followed by the two fixed
boilerplate files `index.ts` and `package.json` — N + 2 entries.
(Without the distinctness proviso, colliding derived names overwrite one
another in the record; see the counterexample.) -/
theorem generateBackend_file_count (exec : ExecFn) (req : AppRequirement)
    (eps : List APIEndpointDefinition)
    (heps : req.apiEndpoints = some eps)
    (hnd : (eps.map endpointFileKey).Nodup)
    (hslash : ∀ e ∈ eps, e.path.data.head? = some '/')
    (hok : isOkE (generateBackend exec req).1 = true) :
    recordKeys (okRecordD (generateBackend exec req).1) =
      eps.map endpointFileKey ++ ["index.ts", "package.json"] ∧
    (okRecordD (generateBackend exec req).1).length = eps.length + 2 := by
  rcases hl : generateBackendLoop exec eps [] with ⟨r1, r2⟩
  rcases r1 with er | code0
  · have hbad : (generateBackend exec req).1 = Except.error er := by
      simp only [generateBackend, heps, Option.getD_some, hl]
    rw [hbad] at hok
    cases hok
  · have hkeys0 : recordKeys code0 = eps.map endpointFileKey := by
      have := generateBackendLoop_keys exec eps [] code0 r2 hl
        (by intro e _; simp [recordKeys]) hnd
      simpa using this
    have hidx : ("index.ts" : String) ∉ recordKeys code0 := by
      rw [hkeys0]
      intro hmem
      obtain ⟨e, he, heq⟩ := List.mem_map.mp hmem
      have h1 := endpointFileKey_head e (hslash e he)
      rw [heq] at h1
      exact absurd h1 (by decide)
    rcases hdep : exec "backend-service" "deploy-backend"
        (JVal.obj [("environment", JVal.str "production"),
                   ("config", JVal.obj [("port", JVal.num 3000)])]) with er | dres
    · have hbad : (generateBackend exec req).1 = Except.error er := by
        simp only [generateBackend, heps, Option.getD_some, hl, hdep]
      rw [hbad] at hok
      cases hok
    · have hgood : (generateBackend exec req).1 = Except.ok
          (mapSet
            (mapSet code0 "index.ts" "import express from \"express\";\n// Main entry point")
            "package.json" (backendPackageJson req.name)) := by
        simp only [generateBackend, heps, Option.getD_some, hl, hdep]
      have hstep1 : mapSet code0 "index.ts"
          "import express from \"express\";\n// Main entry point" =
          code0 ++ [("index.ts", "import express from \"express\";\n// Main entry point")] :=
        mapSet_fresh _ _ _ hidx
      have hpkg : ("package.json" : String) ∉ recordKeys
          (code0 ++ [("index.ts", "import express from \"express\";\n// Main entry point")]) := by
        rw [recordKeys_append]
        intro hmem
        rcases List.mem_append.mp hmem with hin | hin
        · rw [hkeys0] at hin
          obtain ⟨e, he, heq⟩ := List.mem_map.mp hin
          have h1 := endpointFileKey_head e (hslash e he)
          rw [heq] at h1
          exact absurd h1 (by decide)
        · have : ("package.json" : String) = "index.ts" := by
            simpa [recordKeys] using hin
          exact absurd this (by decide)
      rw [hgood]
      constructor
      · show recordKeys (mapSet _ "package.json" _) = _
        rw [hstep1, mapSet_fresh _ _ _ hpkg, recordKeys_append, recordKeys_append, hkeys0]
        simp [recordKeys]
      · show (mapSet _ "package.json" _).length = _
        rw [hstep1, mapSet_fresh _ _ _ hpkg]
        have hlen : code0.length = eps.length := by
          have := congrArg List.length hkeys0
          simpa [recordKeys] using this
        simp [hlen]

/-- A requirement with two endpoints sharing a path (distinct methods). -/
def dupEndpointsReq : AppRequirement :=
  { name := "Dup", description := "d", features := ["f"],
    databaseTables := none,
    apiEndpoints := some [⟨"/a", "GET", "da"⟩, ⟨"/a", "POST", "db"⟩],
    uiComponents := none }

/-- Counterexample to claim C6 as stated: two endpoints (N = 2) whose
paths coincide produce 3 backend files, not N + 2 = 4 — the two derived
file names collide and the record keeps a single entry, so the file
count is not determined by N alone. -/
theorem generateBackend_duplicate_path_counterexample :
    (generateBackend realExec dupEndpointsReq).1 =
      Except.ok
        [("_a.ts", "// db"),
         ("index.ts", "import express from \"express\";\n// Main entry point"),
         ("package.json", backendPackageJson "Dup")] ∧
    (okRecordD (generateBackend realExec dupEndpointsReq).1).length ≠ 2 + 2 :=
  ⟨rfl, by decide⟩

/-- A requirement with two distinct-path endpoints. -/
def twoEndpointsReq : AppRequirement :=
  { name := "W", description := "d", features := ["f"],
    databaseTables := none,
    apiEndpoints := some [⟨"/a", "GET", "x"⟩, ⟨"/b", "POST", "y"⟩],
    uiComponents := none }

/-- Witness for C6: two distinct-path endpoints give exactly 2 + 2 files. -/
theorem generateBackend_file_count_witness :
    recordKeys (okRecordD (generateBackend realExec twoEndpointsReq).1) =
      ["_a.ts", "_b.ts", "index.ts", "package.json"] ∧
    (okRecordD (generateBackend realExec twoEndpointsReq).1).length = 2 + 2 := by
  have h := generateBackend_file_count realExec twoEndpointsReq
    [⟨"/a", "GET", "x"⟩, ⟨"/b", "POST", "y"⟩] rfl (by decide) (by decide) (by rfl)
  exact ⟨h.1, h.2⟩

/-- Claim C10: every successful `generateApp` run stores the one final
context under two distinct keys — the id `planGeneration` allocated
(kept in the context's `appId` field) and the separately allocated id
stamped on the returned app — so `getAppStatus` resolves both ids to the
same context and `listApps` gains two entries for the single generation. -/
theorem mapSet_double_insert {α : Type} (m : List (String × α)) (k1 k2 : String)
    (a b c : α) (hne : k1 ≠ k2) (h1 : k1 ∉ recordKeys m) (h2 : k2 ∉ recordKeys m) :
    mapSet (mapSet (mapSet (mapSet (mapSet m k2 a) k2 b) k1 b) k2 c) k1 c =
      m ++ [(k2, c), (k1, c)] := by
  have hm2 : ∀ p ∈ m, p.1 ≠ k2 := forall_fst_ne_of_not_mem k2 m h2
  have hm1 : ∀ p ∈ m, p.1 ≠ k1 := forall_fst_ne_of_not_mem k1 m h1
  rw [mapSet_fresh m k2 a h2]
  rw [show m ++ [(k2, a)] = m ++ (k2, a) :: [] from rfl]
  rw [mapSet_update_middle m [] k2 a b hm2 (by simp)]
  have hC : k1 ∉ recordKeys (m ++ (k2, b) :: []) := by
    rw [recordKeys_append]
    simp only [List.mem_append]
    rintro (hin | hin)
    · exact h1 hin
    · simp only [recordKeys, List.map_cons, List.map_nil, List.mem_singleton] at hin
      exact hne hin
  rw [mapSet_fresh _ k1 b hC]
  rw [show (m ++ (k2, b) :: []) ++ [(k1, b)] = m ++ (k2, b) :: [(k1, b)] by simp]
  rw [mapSet_update_middle m [(k1, b)] k2 b c hm2
    (by intro p hp; simp only [List.mem_singleton] at hp; rw [hp]; exact hne)]
  rw [show m ++ (k2, c) :: [(k1, b)] = (m ++ [(k2, c)]) ++ (k1, b) :: [] by simp]
  have hfin : ∀ p ∈ m ++ [(k2, c)], p.1 ≠ k1 := by
    intro p hp
    rcases List.mem_append.mp hp with hin | hin
    · exact hm1 p hin
    · simp only [List.mem_singleton] at hin
      rw [hin]
      exact fun heq => hne heq.symm
  rw [mapSet_update_middle (m ++ [(k2, c)]) [] k1 b c hfin (by simp)]
  simp

/-- Claim C10: every successful `generateApp` run stores the one final
context under two distinct keys — the id `planGeneration` allocated
(kept in the context's `appId` field) and the separately allocated id
stamped on the returned app — so `getAppStatus` resolves both ids to the
same context and `listApps` gains two entries for the single generation. -/
theorem generateApp_double_registration (exec : ExecFn) (s : OrchState)
    (req : AppRequirement) (app : GeneratedApp)
    (h : (generateApp exec s req).1 = Except.ok app)
    (hne : appIdOf s.nextId ≠ appIdOf (s.nextId + 1))
    (h1 : appIdOf s.nextId ∉ recordKeys s.apps)
    (h2 : appIdOf (s.nextId + 1) ∉ recordKeys s.apps) :
    ∃ ctx : OrchestrationContext,
      app.id = appIdOf s.nextId ∧
      ctx.appId = appIdOf (s.nextId + 1) ∧
      ctx.generatedApp = some app ∧
      getAppStatus (generateApp exec s req).2.1 app.id = some ctx ∧
      getAppStatus (generateApp exec s req).2.1 ctx.appId = some ctx ∧
      ctx.appId ≠ app.id ∧
      listApps (generateApp exec s req).2.1 = listApps s ++ [ctx, ctx] := by
  cases hE : (validationErrors req).isEmpty with
  | false =>
    have hbad : (generateApp exec s req).1 =
        Except.error ("Planning failed: " ++ joinSep ", " (validationErrors req)) := by
      simp only [generateApp, planGeneration]
      rw [if_pos hE]
    rw [hbad] at h
    cases h
  | true =>
    have hcond : ¬((validationErrors req).isEmpty = false) := by simp [hE]
    rcases hdb : generateDatabase exec req with ⟨dbr, tr1⟩
    rcases dbr with e | db
    · have hbad : (generateApp exec s req).1 = Except.error e := by
        simp only [generateApp, planGeneration]
        rw [if_neg hcond, hdb]
      rw [hbad] at h
      cases h
    · rcases hbe : generateBackend exec req with ⟨ber, tr2⟩
      rcases ber with e | be
      · have hbad : (generateApp exec s req).1 = Except.error e := by
          simp only [generateApp, planGeneration]
          rw [if_neg hcond, hdb, hbe]
        rw [hbad] at h
        cases h
      · rcases hfe : generateFrontend exec req with ⟨fer, tr3⟩
        rcases fer with e | fe
        · have hbad : (generateApp exec s req).1 = Except.error e := by
            simp only [generateApp, planGeneration]
            rw [if_neg hcond, hdb, hbe, hfe]
          rw [hbad] at h
          cases h
        · simp only [generateApp, planGeneration] at h ⊢
          rw [if_neg hcond, hdb, hbe, hfe] at h ⊢
          dsimp only at h ⊢
          injection h with happ
          have hid : app.id = appIdOf s.nextId := (congrArg GeneratedApp.id happ).symm
          rw [happ]
          simp only [getAppStatus, listApps]
          rw [mapSet_double_insert s.apps (appIdOf s.nextId) (appIdOf (s.nextId + 1))
            _ _ _ hne h1 h2]
          refine ⟨⟨appIdOf (s.nextId + 1), req, some app, Phase.generating,
            validationErrors req⟩, hid, rfl, rfl, ?_, ?_, ?_, ?_⟩
          · rw [hid]
            rw [alookup_append_of_none _ _ _ (alookup_eq_none_of_not_mem _ _ h1)]
            simp [alookup,
              (show ¬(appIdOf (s.nextId + 1) = appIdOf s.nextId) from fun heq => hne heq.symm)]
          · show alookup (appIdOf (s.nextId + 1)) _ = _
            rw [alookup_append_of_none _ _ _ (alookup_eq_none_of_not_mem _ _ h2)]
            simp [alookup]
          · show appIdOf (s.nextId + 1) ≠ app.id
            rw [hid]
            exact fun heq => hne heq.symm
          · simp

/-- Witness for C10: the Blog generation yields two tracked entries and
both ids resolve to the same context. -/
theorem generateApp_double_registration_witness :
    (listApps (generateApp realExec initialOrchState blogReq).2.1).length = 2 ∧
    getAppStatus (generateApp realExec initialOrchState blogReq).2.1 "app-0" =
      getAppStatus (generateApp realExec initialOrchState blogReq).2.1 "app-1" := by
  obtain ⟨ctx, hid, hcid, hgen, h4, h5, h6, h7⟩ :=
    generateApp_double_registration realExec initialOrchState blogReq blogApp
      (by rfl) (by decide) (by decide) (by decide)
  rw [hcid] at h5
  constructor
  · rw [h7]
    rfl
  · exact h4.trans h5.symm
